import Mathlib

/-!
Verification of the `redis-locking` crate (src/src/lib.rs) against its
natural-language specification.

Layout of the embedding:

* Store side. The server-side atomic procedures `acquire_lock` / `release_lock`
  live in `src/functions.lua`, which is loaded by `setup` via `include_str!`
  but is not present in the repository snapshot; they are modelled from the
  specification (sections 4.1 and 4.2).  The store is an association list from
  resource names to lock records `{lock_id, expires_at}`; time is a `Nat` of
  milliseconds.

* Client side. The methods of `MultiResourceLock` are embedded as pure
  functions.  Effects of one remote round trip (connection acquisition and the
  `FCALL` query) are supplied by an environment record holding the transport
  outcomes, and each operation additionally returns the list of externally
  visible events it performed (`FCALL`s and sleeps).  `Uuid::new_v4()` is
  modelled as an injective supply indexed by a draw counter.  The `acquire`
  polling loop advances model time by one poll interval per failed attempt
  (round trips take zero model time) and is given fuel to make the recursion
  structural.
-/

set_option autoImplicit false

namespace RedisLocking

/-- Models `redis::RedisError`: a transport-level failure (connectivity, or a
missing server-side function). -/
structure RedisError where
  msg : String
deriving Repr, DecidableEq

/-- Models `redis::Client`: a handle carrying connection information only. -/
structure Client where
  url : String
deriving Repr, DecidableEq

/-- From src/src/lib.rs lines 65-68: the lock client owns just the Redis
client handle. -/
structure MultiResourceLock where
  client : Client
deriving Repr, DecidableEq

/-- Modelled from the spec (section 3), since src/functions.lua is absent from
the snapshot: the store keeps, per resource, a lock record
`\x7b lock_id, expires_at \x7d`. -/
structure LockRecord where
  lockId : String
  expiresAt : Nat
deriving Repr, DecidableEq

/-- Store state: an association list from resource name to its current lock
record.  Well-formed stores have at most one entry per resource. -/
abbrev Store : Type := List (String × LockRecord)

/-- Modelled from the spec: look up the current lock record of a resource. -/
def lookupRecord : Store → String → Option LockRecord
  | [], _ => none
  | e :: rest, r => if e.1 = r then some e.2 else lookupRecord rest r

/-- Modelled from the spec: write a record for one resource, overwriting any
existing record for that resource (spec section 4.1 step 3). -/
def setRecord : Store → String → LockRecord → Store
  | [], r, rec => [(r, rec)]
  | e :: rest, r, rec => if e.1 = r then (r, rec) :: rest else e :: setRecord rest r rec

/-- Modelled from the spec (section 3): a record is destroyed by expiry once
`now > expires_at`, so it is unexpired while `now ≤ expires_at`. -/
def unexpired (now : Nat) (rec : LockRecord) : Bool :=
  decide (now ≤ rec.expiresAt)

/-- Modelled from the spec (section 4.1 step 2): a resource conflicts with an
acquisition attempt when it holds an unexpired record of a different
`lock_id`. -/
def conflictsAt (now : Nat) (lockId : String) (s : Store) (r : String) : Bool :=
  match lookupRecord s r with
  | none => false
  | some rec => unexpired now rec && decide (rec.lockId ≠ lockId)

/-- Modelled from the spec (section 4.1), since src/functions.lua is absent:
the server-side `acquire_lock` procedure.  As one indivisible operation: if any
requested resource has an unexpired record of a different `lock_id`, abort with
no side effects and return absent; otherwise write
`\x7b lock_id, expires_at = now + ttl_ms \x7d` for every requested resource and
return the `lock_id`. -/
def acquireLock (now : Nat) (lockId : String) (ttlMs : Nat) (resources : List String)
    (s : Store) : Option String × Store :=
  if resources.any (fun r => conflictsAt now lockId s r) then
    (none, s)
  else
    (some lockId,
      resources.foldl (fun acc r => setRecord acc r ⟨lockId, now + ttlMs⟩) s)

/-- Modelled from the spec (section 4.2), since src/functions.lua is absent:
the server-side `release_lock` procedure.  Atomically delete every record whose
`lock_id` equals the argument, leave all others untouched, and return the count
of resources released (0, not an error, when nothing matches). -/
def releaseLock (lockId : String) (s : Store) : Nat × Store :=
  ((s.filter (fun e => e.2.lockId = lockId)).length,
    s.filter (fun e => ¬ e.2.lockId = lockId))

/-- An externally visible effect of a client operation: a Redis `FCALL` round
trip, or a timed suspension. -/
inductive Event where
  | fcall (fname : String) (args : List String)
  | sleepFor (ms : Nat)
deriving Repr, DecidableEq

/-- Transport outcomes supplied to one `try_acquire` round trip: the result of
`get_multiplexed_async_connection` and, if that succeeds, of the
`FCALL acquire_lock` query (`Except.ok none` is a conflict, a normal
non-error result). -/
structure TryEnv where
  conn : Except RedisError Unit
  resp : Except RedisError (Option String)
deriving Repr

/-- Models `Uuid::new_v4().to_string()` (src/src/lib.rs line 194): v4 UUIDs are
random and practically unique, so the generator is modelled as an injective
supply of strings indexed by a draw counter (the string's length encodes the
draw, which keeps injectivity immediate). -/
def mintLockId (n : Nat) : String :=
  String.mk (List.replicate (n + 1) 'u')

/-- From src/src/lib.rs lines 188-205, `MultiResourceLock::try_acquire`: get a
connection, mint a fresh `lock_id`, build `args = [lock_id, expiration_ms] ++
resources`, and perform the single `FCALL acquire_lock` round trip.  `n` is the
UUID draw counter; the returned list records the events performed. -/
def MultiResourceLock.tryAcquire (_self : MultiResourceLock) (env : TryEnv) (n : Nat)
    (resources : List String) (expirationMs : Nat) :
    Except RedisError (Option String) × List Event :=
  match env.conn with
  | .error e => (.error e, [])
  | .ok _ =>
    let lockId := mintLockId n
    let args := lockId :: toString expirationMs :: resources
    match env.resp with
    | .error e => (.error e, [.fcall "acquire_lock" args])
    | .ok r => (.ok r, [.fcall "acquire_lock" args])

/-- Transport outcomes supplied to one `release` round trip. -/
structure ReleaseEnv where
  conn : Except RedisError Unit
  resp : Except RedisError Nat
deriving Repr

/-- From src/src/lib.rs lines 207-223, `MultiResourceLock::release`: get a
connection and perform the single `FCALL release_lock` round trip. -/
def MultiResourceLock.release (_self : MultiResourceLock) (env : ReleaseEnv)
    (lockId : String) : Except RedisError Nat × List Event :=
  match env.conn with
  | .error e => (.error e, [])
  | .ok _ =>
    match env.resp with
    | .error e => (.error e, [.fcall "release_lock" [lockId]])
    | .ok n => (.ok n, [.fcall "release_lock" [lockId]])

/-- From src/src/lib.rs lines 106-111: the documented default durations,
expressed in milliseconds (`Duration::from_secs(3600)`, `from_secs(60)`,
`from_secs(1)`). -/
def DEFAULT_EXPIRATION : Nat := 3600 * 1000

/-- From src/src/lib.rs line 109: default timeout for acquiring the lock. -/
def DEFAULT_TIMEOUT : Nat := 60 * 1000

/-- From src/src/lib.rs line 111: default sleep between acquisition attempts. -/
def DEFAULT_SLEEP : Nat := 1 * 1000

/-- Written from the spec (section 4.4) for the refinement claim about the
default variants: expiration = 1 hour, in milliseconds. -/
def specDefaultExpirationMs : Nat := 60 * 60 * 1000

/-- Written from the spec (section 4.4): timeout = 60 seconds, in
milliseconds. -/
def specDefaultTimeoutMs : Nat := 60 * 1000

/-- Written from the spec (section 4.4): poll interval = 1 second, in
milliseconds. -/
def specDefaultPollIntervalMs : Nat := 1000

/-- From src/src/lib.rs lines 113-122, `MultiResourceLock::new`: wraps the
client, returning `Ok`; no store communication happens, so the event list is
empty. -/
def MultiResourceLock.new (client : Client) :
    Except RedisError MultiResourceLock × List Event :=
  (.ok { client := client }, [])

/-- Result of a run of the `acquire` polling loop: the returned value together
with the elapsed model time at return and the events performed, or fuel
exhaustion of the model (the source loop has no fuel bound). -/
inductive AcqResult (α : Type) where
  | out (r : Except RedisError (Option α)) (elapsed : Nat) (trace : List Event)
  | fuelOut
deriving Repr

/-- From src/src/lib.rs lines 150-167, `MultiResourceLock::acquire`, as a
fuel-indexed recursion.  Arguments `k` and `t` are the iteration counter (which
also indexes the per-attempt transport environment and the UUID draw) and the
elapsed model time; each loop iteration first checks `now.elapsed() > timeout`,
then makes one `try_acquire` attempt, and on a conflict sleeps for `sleepMs`,
which advances the model clock by `sleepMs`. -/
def acquireAux (self : MultiResourceLock) (envs : Nat → TryEnv)
    (resources : List String) (expirationMs timeoutMs sleepMs : Nat) :
    Nat → Nat → Nat → AcqResult String
  | 0, _, _ => .fuelOut
  | fuel + 1, k, t =>
    if timeoutMs < t then .out (.ok none) t []
    else
      match self.tryAcquire (envs k) k resources expirationMs with
      | (.error e, tr) => .out (.error e) t tr
      | (.ok (some res), tr) => .out (.ok (some res)) t tr
      | (.ok none, tr) =>
        match acquireAux self envs resources expirationMs timeoutMs sleepMs fuel (k + 1)
            (t + sleepMs) with
        | .fuelOut => .fuelOut
        | .out r tEnd trEnd => .out r tEnd (tr ++ Event.sleepFor sleepMs :: trEnd)

/-- From src/src/lib.rs lines 150-167: the `acquire` loop started at iteration
0 with elapsed time 0. -/
def MultiResourceLock.acquire (self : MultiResourceLock) (envs : Nat → TryEnv)
    (fuel : Nat) (resources : List String) (expirationMs timeoutMs sleepMs : Nat) :
    AcqResult String :=
  acquireAux self envs resources expirationMs timeoutMs sleepMs fuel 0 0

/-- From src/src/lib.rs lines 129-138, `MultiResourceLock::acquire_default`:
calls `acquire` with the three default durations. -/
def MultiResourceLock.acquireDefault (self : MultiResourceLock) (envs : Nat → TryEnv)
    (fuel : Nat) (resources : List String) : AcqResult String :=
  self.acquire envs fuel resources DEFAULT_EXPIRATION DEFAULT_TIMEOUT DEFAULT_SLEEP

/-- From src/src/lib.rs lines 175-180, `MultiResourceLock::try_acquire_default`:
calls `try_acquire` with the default expiration. -/
def MultiResourceLock.tryAcquireDefault (self : MultiResourceLock) (env : TryEnv)
    (n : Nat) (resources : List String) : Except RedisError (Option String) × List Event :=
  self.tryAcquire env n resources DEFAULT_EXPIRATION

/-- From src/src/lib.rs lines 312-319: the guard holds the lock instance (here,
the client handle it will clone at drop), the lock identifier, and a runtime
handle (irrelevant to the embedded state). -/
structure MultiResourceGuard where
  client : Client
  lockId : String
deriving Repr, DecidableEq

/-- From src/src/lib.rs lines 246-258, `MultiResourceLock::try_lock`: performs
`try_acquire` and wraps a granted `lock_id` in a guard; errors and the absent
result pass through `map` unchanged. -/
def MultiResourceLock.tryLock (self : MultiResourceLock) (env : TryEnv) (n : Nat)
    (resources : List String) (expirationMs : Nat) :
    Except RedisError (Option MultiResourceGuard) × List Event :=
  match self.tryAcquire env n resources expirationMs with
  | (r, tr) =>
    (r.map (fun result => result.map (fun lockId => ⟨self.client, lockId⟩)), tr)

/-- From src/src/lib.rs lines 231-236, `MultiResourceLock::try_lock_default`:
calls `try_lock` with the default expiration. -/
def MultiResourceLock.tryLockDefault (self : MultiResourceLock) (env : TryEnv) (n : Nat)
    (resources : List String) :
    Except RedisError (Option MultiResourceGuard) × List Event :=
  self.tryLock env n resources DEFAULT_EXPIRATION

/-- From src/src/lib.rs lines 291-307, `MultiResourceLock::lock`: performs
`acquire` and wraps a granted `lock_id` in a guard. -/
def MultiResourceLock.lock (self : MultiResourceLock) (envs : Nat → TryEnv) (fuel : Nat)
    (resources : List String) (expirationMs timeoutMs sleepMs : Nat) :
    AcqResult MultiResourceGuard :=
  match self.acquire envs fuel resources expirationMs timeoutMs sleepMs with
  | .fuelOut => .fuelOut
  | .out r t tr =>
    .out (r.map (fun result => result.map (fun lockId => ⟨self.client, lockId⟩))) t tr

/-- From src/src/lib.rs lines 266-277, `MultiResourceLock::lock_default`: calls
`lock` with the three default durations. -/
def MultiResourceLock.lockDefault (self : MultiResourceLock) (envs : Nat → TryEnv)
    (fuel : Nat) (resources : List String) : AcqResult MultiResourceGuard :=
  self.lock envs fuel resources DEFAULT_EXPIRATION DEFAULT_TIMEOUT DEFAULT_SLEEP

/-- Outcome of dropping a guard (src/src/lib.rs lines 325-337), separating what
happens on the caller's synchronous destruction path from what the dispatched
background task does. -/
structure DropResult where
  /-- Error surfaced to the caller by `drop` itself: `Drop::drop` returns unit,
  so there is never one. -/
  callerError : Option RedisError
  /-- Events performed on the caller's thread: `drop` only clones data and
  calls `task::spawn_blocking`, so no round trip or sleep happens here. -/
  callerEvents : List Event
  /-- Lock ids for which a release task was dispatched. -/
  spawnedReleases : List String
  /-- The client handle captured by the spawned task: a fresh
  `MultiResourceLock` built from a clone of the guard's client, so the release
  uses its own independently obtained connection. -/
  taskLock : MultiResourceLock
  /-- Events the spawned task performs when it runs. -/
  taskEvents : List Event
  /-- Whether the spawned task panics: the closure calls `.unwrap()` on the
  release result, so it panics exactly when the release errors; the
  `JoinHandle` is discarded, so the panic reaches no one. -/
  taskPanicked : Bool
deriving Repr

/-- From src/src/lib.rs lines 325-337, `Drop for MultiResourceGuard`: build a
new `MultiResourceLock` from a clone of the client, clone the `lock_id`, and
dispatch via `task::spawn_blocking` a task that runs `release` on the new lock
and unwraps the result.  `env` supplies the transport outcomes the background
task will see when it runs. -/
def MultiResourceGuard.drop (self : MultiResourceGuard) (env : ReleaseEnv) : DropResult :=
  let lock : MultiResourceLock := { client := self.client }
  let lockId := self.lockId
  match lock.release env lockId with
  | (r, tr) =>
    { callerError := none
      callerEvents := []
      spawnedReleases := [lockId]
      taskLock := lock
      taskEvents := tr
      taskPanicked := !r.isOk }

/-- Transport environment of an attempt that reaches the store and is told the
resources are contended (a conflict: a normal, non-error absent result). -/
def conflictEnv : TryEnv :=
  ⟨.ok (), .ok none⟩

/-- The event of one `FCALL acquire_lock` round trip at UUID draw `k`. -/
def acqCallEvent (resources : List String) (expirationMs k : Nat) : Event :=
  Event.fcall "acquire_lock" (mintLockId k :: toString expirationMs :: resources)

/-- The trace of `n` consecutive conflicting poll iterations starting at
iteration `k`: each is one acquire round trip followed by one poll-interval
sleep. -/
def pollTrace (resources : List String) (expirationMs sleepMs : Nat) :
    Nat → Nat → List Event
  | _, 0 => []
  | k, Nat.succ n =>
    acqCallEvent resources expirationMs k :: Event.sleepFor sleepMs ::
      pollTrace resources expirationMs sleepMs (k + 1) n

/-- Number of store round trips recorded in a trace. -/
def countFcalls (tr : List Event) : Nat :=
  tr.countP fun ev =>
    match ev with
    | .fcall _ _ => true
    | .sleepFor _ => false

/-- A well-formed store holds at most one lock record per resource. -/
def wfStore (s : Store) : Prop :=
  (s.map Prod.fst).Nodup

theorem lookupRecord_setRecord (s : Store) (r : String) (rec : LockRecord) (x : String) :
    lookupRecord (setRecord s r rec) x = if x = r then some rec else lookupRecord s x := by
  induction s with
  | nil =>
    by_cases h : x = r
    · simp [setRecord, lookupRecord, h]
    · have h2 : ¬ r = x := fun hrx => h hrx.symm
      simp [setRecord, lookupRecord, h, h2]
  | cons e rest ih =>
    by_cases he : e.1 = r
    · subst he
      by_cases hx : x = e.1
      · simp [setRecord, lookupRecord, hx]
      · have h2 : ¬ e.1 = x := fun h2 => hx h2.symm
        simp [setRecord, lookupRecord, hx, h2]
    · by_cases hex : e.1 = x
      · have hxr : ¬ x = r := fun hxr => he (hxr ▸ hex)
        simp [setRecord, lookupRecord, he, hex, hxr]
      · simp [setRecord, lookupRecord, he, hex, ih]

theorem lookupRecord_writeFold (resources : List String) (rec : LockRecord) :
    ∀ (s : Store) (x : String),
      lookupRecord (resources.foldl (fun acc r => setRecord acc r rec) s) x =
        if x ∈ resources then some rec else lookupRecord s x := by
  induction resources with
  | nil => intro s x; simp
  | cons a rest ih =>
    intro s x
    simp only [List.foldl_cons]
    rw [ih]
    by_cases hx : x ∈ rest
    · simp [hx]
    · by_cases hxa : x = a <;>
        simp [hx, hxa, lookupRecord_setRecord]

theorem mem_keys_setRecord (s : Store) (r : String) (rec : LockRecord) (x : String) :
    x ∈ (setRecord s r rec).map Prod.fst ↔ x ∈ s.map Prod.fst ∨ x = r := by
  induction s with
  | nil => simp [setRecord, eq_comm]
  | cons e rest ih =>
    by_cases he : e.1 = r
    · subst he
      simp [setRecord]
      tauto
    · simp [setRecord, he, ih]
      tauto

theorem nodup_keys_setRecord (s : Store) (r : String) (rec : LockRecord)
    (h : (s.map Prod.fst).Nodup) : ((setRecord s r rec).map Prod.fst).Nodup := by
  induction s with
  | nil => simp [setRecord]
  | cons e rest ih =>
    simp only [List.map_cons, List.nodup_cons] at h
    by_cases he : e.1 = r
    · have hs : setRecord (e :: rest) r rec = (r, rec) :: rest := by
        simp [setRecord, he]
      rw [hs]
      simp only [List.map_cons, List.nodup_cons]
      exact ⟨he ▸ h.1, h.2⟩
    · have hs : setRecord (e :: rest) r rec = e :: setRecord rest r rec := by
        simp [setRecord, he]
      rw [hs]
      simp only [List.map_cons, List.nodup_cons]
      refine ⟨fun hmem => ?_, ih h.2⟩
      rcases (mem_keys_setRecord rest r rec e.1).1 hmem with h1 | h2
      · exact h.1 h1
      · exact he h2

theorem nodup_keys_writeFold (resources : List String) (rec : LockRecord) :
    ∀ s : Store, (s.map Prod.fst).Nodup →
      ((resources.foldl (fun acc r => setRecord acc r rec) s).map Prod.fst).Nodup := by
  induction resources with
  | nil => intro s h; simpa using h
  | cons a rest ih =>
    intro s h
    simp only [List.foldl_cons]
    exact ih _ (nodup_keys_setRecord s a rec h)

theorem acquireLock_success_store (now : Nat) (lockId : String) (ttl : Nat)
    (R : List String) (s : Store) (a : String) (s' : Store)
    (h : acquireLock now lockId ttl R s = (some a, s')) :
    s' = R.foldl (fun acc r => setRecord acc r ⟨lockId, now + ttl⟩) s := by
  unfold acquireLock at h
  split at h
  · simp at h
  · exact (Prod.mk.injEq _ _ _ _ ▸ h).2.symm

/-- Claim C1: mutual exclusion.  If an acquisition attempt succeeds on a
resource set, then while its TTL has not expired any attempt by a different
`lock_id` over an overlapping resource set returns absent and leaves the store
unchanged; moreover the winner's write preserves the invariant that at most one
lock record exists per resource. -/
theorem claim_mutual_exclusion
    (s s' : Store) (now₁ now₂ ttl₁ ttl₂ : Nat) (id₁ id₂ : String)
    (R₁ R₂ : List String) (r : String)
    (hacq : acquireLock now₁ id₁ ttl₁ R₁ s = (some id₁, s'))
    (hr₁ : r ∈ R₁) (hr₂ : r ∈ R₂)
    (hid : id₂ ≠ id₁)
    (hunexp : now₂ ≤ now₁ + ttl₁) :
    acquireLock now₂ id₂ ttl₂ R₂ s' = (none, s') ∧ (wfStore s → wfStore s') := by
  have hs' := acquireLock_success_store now₁ id₁ ttl₁ R₁ s id₁ s' hacq
  have hlook : lookupRecord s' r = some ⟨id₁, now₁ + ttl₁⟩ := by
    rw [hs', lookupRecord_writeFold]
    simp [hr₁]
  have hconf : conflictsAt now₂ id₂ s' r = true := by
    unfold conflictsAt
    rw [hlook]
    simp [unexpired, hunexp]
    exact fun h => hid h.symm
  have hany : R₂.any (fun x => conflictsAt now₂ id₂ s' x) = true :=
    List.any_eq_true.mpr ⟨r, hr₂, hconf⟩
  constructor
  · unfold acquireLock
    rw [hany]
    simp
  · intro hwf
    rw [hs']
    exact nodup_keys_writeFold R₁ _ s hwf

/-- Claim C1 witness: a concrete two-caller scenario on overlapping resource
sets. -/
theorem claim_mutual_exclusion_witness :
    acquireLock 500 "B" 1000 ["b", "c"]
        [("a", ⟨"A", 1000⟩), ("b", ⟨"A", 1000⟩)] =
      (none, [("a", ⟨"A", 1000⟩), ("b", ⟨"A", 1000⟩)]) ∧
      (wfStore [] → wfStore [("a", ⟨"A", 1000⟩), ("b", ⟨"A", 1000⟩)]) :=
  claim_mutual_exclusion [] [("a", ⟨"A", 1000⟩), ("b", ⟨"A", 1000⟩)]
    0 500 1000 700 "A" "B" ["a", "b"] ["b", "c"] "b"
    (by decide) (by decide) (by decide) (by decide) (by decide)

/-- Claim C4: releasing a `lock_id` that matches no current record returns 0 as
a normal result (not an error) and leaves the store, in particular every record
belonging to another `lock_id`, untouched. -/
theorem claim_release_unknown_id (s : Store) (lockId : String)
    (h : ∀ e ∈ s, e.2.lockId ≠ lockId) :
    releaseLock lockId s = (0, s) := by
  unfold releaseLock
  have h1 : s.filter (fun e => decide (e.2.lockId = lockId)) = [] := by
    induction s with
    | nil => rfl
    | cons e rest ih =>
      have he : ¬ e.2.lockId = lockId := h e (by simp)
      simp only [List.filter_cons, decide_eq_true_eq]
      rw [if_neg he]
      exact ih fun x hx => h x (List.mem_cons_of_mem e hx)
  have h2 : s.filter (fun e => decide (¬ e.2.lockId = lockId)) = s := by
    clear h1
    induction s with
    | nil => rfl
    | cons e rest ih =>
      have he : ¬ e.2.lockId = lockId := h e (by simp)
      simp only [List.filter_cons, decide_eq_true_eq]
      rw [if_pos he, ih fun x hx => h x (List.mem_cons_of_mem e hx)]
  rw [h1, h2]
  simp

/-- Claim C4 witness: releasing a stale id over a store held by someone else. -/
theorem claim_release_unknown_id_witness :
    releaseLock "stale" [("a", ⟨"A", 1000⟩), ("b", ⟨"B", 2000⟩)] =
      (0, [("a", ⟨"A", 1000⟩), ("b", ⟨"B", 2000⟩)]) :=
  claim_release_unknown_id [("a", ⟨"A", 1000⟩), ("b", ⟨"B", 2000⟩)] "stale"
    (by decide)

theorem mintLockId_injective : Function.Injective mintLockId := by
  intro m n h
  have hlen : (mintLockId m).length = (mintLockId n).length := by rw [h]
  simpa [mintLockId, String.length] using hlen

/-- Claim C10: `MultiResourceLock::new` always returns `Ok` wrapping the given
client, performing no store communication, despite its fallible result type and
its documentation claiming it can error. -/
theorem claim_new_infallible (c : Client) :
    MultiResourceLock.new c = (.ok { client := c }, []) := rfl

/-- Claim C9: each `_default` convenience variant behaves identically to its
base operation applied with the documented defaults (expiration = 1 hour,
timeout = 60 seconds, poll interval = 1 second), and the code's default
constants equal the documented values. -/
theorem claim_default_variants (self : MultiResourceLock) (env : TryEnv)
    (envs : Nat → TryEnv) (n fuel : Nat) (resources : List String) :
    self.tryAcquireDefault env n resources =
        self.tryAcquire env n resources specDefaultExpirationMs ∧
      self.acquireDefault envs fuel resources =
        self.acquire envs fuel resources specDefaultExpirationMs specDefaultTimeoutMs
          specDefaultPollIntervalMs ∧
      self.tryLockDefault env n resources =
        self.tryLock env n resources specDefaultExpirationMs ∧
      self.lockDefault envs fuel resources =
        self.lock envs fuel resources specDefaultExpirationMs specDefaultTimeoutMs
          specDefaultPollIntervalMs ∧
      DEFAULT_EXPIRATION = specDefaultExpirationMs ∧
      DEFAULT_TIMEOUT = specDefaultTimeoutMs ∧
      DEFAULT_SLEEP = specDefaultPollIntervalMs :=
  ⟨rfl, rfl, rfl, rfl, rfl, rfl, rfl⟩

/-- Claim C2: `try_acquire` performs exactly one acquire round trip (the single
`FCALL acquire_lock`, with the freshly minted id and the TTL prepended to the
resources) and never sleeps; the `lock_id` supply is injective, so ids minted
by distinct draws — including retries of the same logical request — never
coincide. -/
theorem claim_try_acquire_single_round_trip (self : MultiResourceLock) (env : TryEnv)
    (n expirationMs : Nat) (resources : List String)
    (hconn : env.conn = .ok ()) :
    (self.tryAcquire env n resources expirationMs).2 =
        [Event.fcall "acquire_lock" (mintLockId n :: toString expirationMs :: resources)] ∧
      Function.Injective mintLockId := by
  refine ⟨?_, mintLockId_injective⟩
  unfold MultiResourceLock.tryAcquire
  rw [hconn]
  cases h : env.resp <;> simp

/-- Claim C2 witness. -/
theorem claim_try_acquire_single_round_trip_witness :
    (MultiResourceLock.tryAcquire ⟨⟨"redis://127.0.0.1/"⟩⟩ ⟨.ok (), .ok none⟩ 0 ["a"] 5).2 =
        [Event.fcall "acquire_lock" (mintLockId 0 :: toString 5 :: ["a"])] ∧
      Function.Injective mintLockId :=
  claim_try_acquire_single_round_trip ⟨⟨"redis://127.0.0.1/"⟩⟩ ⟨.ok (), .ok none⟩ 0 5 ["a"]
    rfl

/-- Claim C5 counterexample: calling `try_acquire` with an empty resource list
and a zero TTL is not rejected on the caller side — the store round trip (one
`FCALL acquire_lock`) is still performed and the store's answer is returned as
a normal result.  No caller-side precondition check exists in the code. -/
theorem claim_no_precondition_check_counterexample :
    (MultiResourceLock.tryAcquire ⟨⟨"redis://127.0.0.1/"⟩⟩ ⟨.ok (), .ok none⟩ 0 [] 0).2 ≠
        [] ∧
      (MultiResourceLock.tryAcquire ⟨⟨"redis://127.0.0.1/"⟩⟩ ⟨.ok (), .ok none⟩ 0 [] 0).2 =
        [Event.fcall "acquire_lock" [mintLockId 0, "0"]] ∧
      (MultiResourceLock.tryAcquire ⟨⟨"redis://127.0.0.1/"⟩⟩ ⟨.ok (), .ok none⟩ 0 [] 0).1 =
        .ok none := by
  refine ⟨?_, rfl, rfl⟩
  have h2 : (MultiResourceLock.tryAcquire ⟨⟨"redis://127.0.0.1/"⟩⟩ ⟨.ok (), .ok none⟩
      0 [] 0).2 = [Event.fcall "acquire_lock" [mintLockId 0, "0"]] := rfl
  rw [h2]
  simp

/-- Claim C5 amended: `try_acquire` performs no caller-side validation: even
with an empty resource list and a zero TTL it performs its single store round
trip (once a connection is obtained) and passes the store's response through
unchanged. -/
theorem claim_no_precondition_check (self : MultiResourceLock) (env : TryEnv) (n : Nat)
    (hconn : env.conn = .ok ()) :
    (self.tryAcquire env n [] 0).2 =
        [Event.fcall "acquire_lock" [mintLockId n, "0"]] ∧
      (self.tryAcquire env n [] 0).1 = env.resp := by
  unfold MultiResourceLock.tryAcquire
  rw [hconn]
  cases h : env.resp <;> exact ⟨rfl, rfl⟩

/-- Claim C5 amended witness. -/
theorem claim_no_precondition_check_witness :
    (MultiResourceLock.tryAcquire ⟨⟨"redis://127.0.0.1/"⟩⟩ ⟨.ok (), .ok none⟩ 3 [] 0).2 =
        [Event.fcall "acquire_lock" [mintLockId 3, "0"]] ∧
      (MultiResourceLock.tryAcquire ⟨⟨"redis://127.0.0.1/"⟩⟩ ⟨.ok (), .ok none⟩ 3 [] 0).1 =
        (TryEnv.mk (.ok ()) (.ok none)).resp :=
  claim_no_precondition_check ⟨⟨"redis://127.0.0.1/"⟩⟩ ⟨.ok (), .ok none⟩ 3 rfl

theorem tryAcquire_conflictEnv (self : MultiResourceLock) (k : Nat)
    (resources : List String) (expirationMs : Nat) :
    self.tryAcquire conflictEnv k resources expirationMs =
      (.ok none, [acqCallEvent resources expirationMs k]) := rfl

theorem acquireAux_timed_out (self : MultiResourceLock) (envs : Nat → TryEnv)
    (resources : List String) (E T P fuel k t : Nat) (ht : T < t) :
    acquireAux self envs resources E T P (fuel + 1) k t = .out (.ok none) t [] := by
  unfold acquireAux
  rw [if_pos ht]

theorem acquireAux_step_conflict (self : MultiResourceLock) (envs : Nat → TryEnv)
    (resources : List String) (E T P fuel k t : Nat)
    (ht : ¬ T < t) (hk : envs k = conflictEnv) :
    acquireAux self envs resources E T P (fuel + 1) k t =
      match acquireAux self envs resources E T P fuel (k + 1) (t + P) with
      | .fuelOut => .fuelOut
      | .out r tEnd tr =>
        .out r tEnd (acqCallEvent resources E k :: Event.sleepFor P :: tr) := by
  conv_lhs => unfold acquireAux
  rw [if_neg ht, hk, tryAcquire_conflictEnv]
  rfl

theorem acquireAux_step_success (self : MultiResourceLock) (envs : Nat → TryEnv)
    (resources : List String) (E T P fuel k t : Nat) (res : String)
    (ht : ¬ T < t) (hk : envs k = ⟨.ok (), .ok (some res)⟩) :
    acquireAux self envs resources E T P (fuel + 1) k t =
      .out (.ok (some res)) t [acqCallEvent resources E k] := by
  unfold acquireAux
  rw [if_neg ht, hk]
  rfl

theorem acquireAux_step_respErr (self : MultiResourceLock) (envs : Nat → TryEnv)
    (resources : List String) (E T P fuel k t : Nat) (e : RedisError)
    (ht : ¬ T < t) (hk : envs k = ⟨.ok (), .error e⟩) :
    acquireAux self envs resources E T P (fuel + 1) k t =
      .out (.error e) t [acqCallEvent resources E k] := by
  unfold acquireAux
  rw [if_neg ht, hk]
  rfl

theorem acquireAux_contended (self : MultiResourceLock) (envs : Nat → TryEnv)
    (resources : List String) (E T P : Nat)
    (hc : ∀ j, envs j = conflictEnv) :
    ∀ fuel k t : Nat, t ≤ T + P → T + P < t + fuel * P →
      ∃ tEnd tr,
        acquireAux self envs resources E T P fuel k t = .out (.ok none) tEnd tr ∧
          T < tEnd ∧ tEnd ≤ T + P := by
  intro fuel
  induction fuel with
  | zero =>
    intro k t h1 h2
    simp only [Nat.zero_mul, Nat.add_zero] at h2
    omega
  | succ fuel ih =>
    intro k t h1 h2
    by_cases ht : T < t
    · exact ⟨t, [], acquireAux_timed_out self envs resources E T P fuel k t ht, ht, h1⟩
    · have harith : t + (fuel + 1) * P = (t + P) + fuel * P := by ring
      obtain ⟨tEnd, tr, hrec, h3, h4⟩ :=
        ih (k + 1) (t + P) (by omega) (by rw [harith] at h2; exact h2)
      refine ⟨tEnd, acqCallEvent resources E k :: Event.sleepFor P :: tr, ?_, h3, h4⟩
      rw [acquireAux_step_conflict self envs resources E T P fuel k t ht (hc k), hrec]

theorem acquireAux_success (self : MultiResourceLock) (envs : Nat → TryEnv)
    (resources : List String) (E T P : Nat) :
    ∀ n k t fuel : Nat, ∀ res : String,
      (∀ j, j < n → envs (k + j) = conflictEnv) →
      envs (k + n) = ⟨.ok (), .ok (some res)⟩ →
      t + n * P ≤ T → n < fuel →
      acquireAux self envs resources E T P fuel k t =
        .out (.ok (some res)) (t + n * P)
          (pollTrace resources E P k n ++ [acqCallEvent resources E (k + n)]) := by
  intro n
  induction n with
  | zero =>
    intro k t fuel res _hpre hsucc hT hfuel
    obtain ⟨f, rfl⟩ : ∃ f, fuel = f + 1 := ⟨fuel - 1, by omega⟩
    simp only [Nat.zero_mul, Nat.add_zero] at hT ⊢
    have hk : envs k = ⟨.ok (), .ok (some res)⟩ := by simpa using hsucc
    rw [acquireAux_step_success self envs resources E T P f k t res (by omega) hk]
    simp [pollTrace]
  | succ n ih =>
    intro k t fuel res hpre hsucc hT hfuel
    obtain ⟨f, rfl⟩ : ∃ f, fuel = f + 1 := ⟨fuel - 1, by omega⟩
    have harith : t + (n + 1) * P = (t + P) + n * P := by ring
    have h0 : envs k = conflictEnv := by simpa using hpre 0 (by omega)
    have hpre2 : ∀ j, j < n → envs (k + 1 + j) = conflictEnv := by
      intro j hj
      have := hpre (j + 1) (by omega)
      rwa [show k + (j + 1) = k + 1 + j by omega] at this
    have hsucc2 : envs (k + 1 + n) = ⟨.ok (), .ok (some res)⟩ := by
      rwa [show k + (n + 1) = k + 1 + n by omega] at hsucc
    have hT2 : (t + P) + n * P ≤ T := by rw [← harith]; exact hT
    have hrec := ih (k + 1) (t + P) f res hpre2 hsucc2 hT2 (by omega)
    rw [acquireAux_step_conflict self envs resources E T P f k t (by omega) h0, hrec]
    simp only [pollTrace, List.cons_append]
    rw [show (t + P) + n * P = t + (n + 1) * P from harith.symm,
      show k + 1 + n = k + (n + 1) by omega]

theorem acquireAux_respErr (self : MultiResourceLock) (envs : Nat → TryEnv)
    (resources : List String) (E T P : Nat) :
    ∀ n k t fuel : Nat, ∀ e : RedisError,
      (∀ j, j < n → envs (k + j) = conflictEnv) →
      envs (k + n) = ⟨.ok (), .error e⟩ →
      t + n * P ≤ T → n < fuel →
      acquireAux self envs resources E T P fuel k t =
        .out (.error e) (t + n * P)
          (pollTrace resources E P k n ++ [acqCallEvent resources E (k + n)]) := by
  intro n
  induction n with
  | zero =>
    intro k t fuel e _hpre herr hT hfuel
    obtain ⟨f, rfl⟩ : ∃ f, fuel = f + 1 := ⟨fuel - 1, by omega⟩
    simp only [Nat.zero_mul, Nat.add_zero] at hT ⊢
    have hk : envs k = ⟨.ok (), .error e⟩ := by simpa using herr
    rw [acquireAux_step_respErr self envs resources E T P f k t e (by omega) hk]
    simp [pollTrace]
  | succ n ih =>
    intro k t fuel e hpre herr hT hfuel
    obtain ⟨f, rfl⟩ : ∃ f, fuel = f + 1 := ⟨fuel - 1, by omega⟩
    have harith : t + (n + 1) * P = (t + P) + n * P := by ring
    have h0 : envs k = conflictEnv := by simpa using hpre 0 (by omega)
    have hpre2 : ∀ j, j < n → envs (k + 1 + j) = conflictEnv := by
      intro j hj
      have := hpre (j + 1) (by omega)
      rwa [show k + (j + 1) = k + 1 + j by omega] at this
    have herr2 : envs (k + 1 + n) = ⟨.ok (), .error e⟩ := by
      rwa [show k + (n + 1) = k + 1 + n by omega] at herr
    have hT2 : (t + P) + n * P ≤ T := by rw [← harith]; exact hT
    have hrec := ih (k + 1) (t + P) f e hpre2 herr2 hT2 (by omega)
    rw [acquireAux_step_conflict self envs resources E T P f k t (by omega) h0, hrec]
    simp only [pollTrace, List.cons_append]
    rw [show (t + P) + n * P = t + (n + 1) * P from harith.symm,
      show k + 1 + n = k + (n + 1) by omega]

theorem countFcalls_pollTrace (resources : List String) (E P : Nat) :
    ∀ n k : Nat, countFcalls (pollTrace resources E P k n) = n := by
  intro n
  induction n with
  | zero => intro k; rfl
  | succ n ih =>
    intro k
    simp only [pollTrace, countFcalls, List.countP_cons, acqCallEvent]
    have := ih (k + 1)
    simp only [countFcalls] at this
    simp [this]

/-- Claim C3: behavior of the `acquire` polling loop.  First conjunct: against
permanent contention it returns absent at an elapsed time strictly greater than
the timeout and at most timeout plus one poll interval, making no attempts
after that point.  Second conjunct: when the first `n` attempts conflict and
attempt `n` succeeds within the timeout, it suspends for the poll interval
after each conflict (the explicit trace) and returns the granted lock id
immediately at the time of the successful attempt, with no sleep after the
final round trip.  Model time advances by one poll interval per conflicting
attempt. -/
theorem claim_acquire_polling_timeout (self : MultiResourceLock)
    (envsC envsS : Nat → TryEnv) (resources : List String)
    (E T P fuelC fuelS n : Nat) (res : String)
    (hContended : ∀ j, envsC j = conflictEnv)
    (hfuelC : T + P < fuelC * P)
    (hpre : ∀ j, j < n → envsS j = conflictEnv)
    (hsucc : envsS n = ⟨.ok (), .ok (some res)⟩)
    (hT : n * P ≤ T) (hfuelS : n < fuelS) :
    (∃ tEnd tr,
        self.acquire envsC fuelC resources E T P = .out (.ok none) tEnd tr ∧
          T < tEnd ∧ tEnd ≤ T + P) ∧
      self.acquire envsS fuelS resources E T P =
        .out (.ok (some res)) (n * P)
          (pollTrace resources E P 0 n ++ [acqCallEvent resources E n]) := by
  constructor
  · exact acquireAux_contended self envsC resources E T P hContended fuelC 0 0
      (by omega) (by simpa using hfuelC)
  · have h := acquireAux_success self envsS resources E T P n 0 0 fuelS res
      (by intro j hj; simpa using hpre j hj) (by simpa using hsucc)
      (by simpa using hT) hfuelS
    simpa [MultiResourceLock.acquire] using h

/-- Claim C3 witness: timeout 5, poll interval 2 against permanent contention;
and success at the third attempt after two conflicts. -/
theorem claim_acquire_polling_timeout_witness :
    (∃ tEnd tr,
        MultiResourceLock.acquire ⟨⟨"redis://127.0.0.1/"⟩⟩ (fun _ => conflictEnv) 4
            ["a"] 10 5 2 = .out (.ok none) tEnd tr ∧
          5 < tEnd ∧ tEnd ≤ 5 + 2) ∧
      MultiResourceLock.acquire ⟨⟨"redis://127.0.0.1/"⟩⟩
          (fun j => if j < 2 then conflictEnv else ⟨.ok (), .ok (some "L")⟩) 3
          ["a"] 10 5 2 =
        .out (.ok (some "L")) (2 * 2)
          (pollTrace ["a"] 10 2 0 2 ++ [acqCallEvent ["a"] 10 2]) :=
  claim_acquire_polling_timeout ⟨⟨"redis://127.0.0.1/"⟩⟩ (fun _ => conflictEnv)
    (fun j => if j < 2 then conflictEnv else ⟨.ok (), .ok (some "L")⟩)
    ["a"] 10 5 2 4 3 2 "L"
    (fun _ => rfl) (by norm_num) (fun j hj => by simp [hj]) rfl
    (by norm_num) (by norm_num)

/-- Claim C8: transport errors propagate immediately out of every client-facing
call: a connection error or a query error makes `try_acquire` (and `try_lock`,
which wraps it) return that error; inside the `acquire` retry loop, a transport
error at attempt `n` aborts the loop at once — the trace holds exactly the
`n + 1` round trips up to and including the failing one, with no attempt after
it — and `lock` propagates the same error; `release` likewise returns the
error.  No operation retries internally on a transport error. -/
theorem claim_transport_error_propagation (self : MultiResourceLock)
    (envC envR : TryEnv) (relEnv : ReleaseEnv) (envs : Nat → TryEnv)
    (resources : List String) (E T P fuel n m : Nat) (e : RedisError) (lockId : String)
    (hC : envC.conn = .error e)
    (hR : envR.conn = .ok ()) (hRr : envR.resp = .error e)
    (hpre : ∀ j, j < n → envs j = conflictEnv)
    (herr : envs n = ⟨.ok (), .error e⟩)
    (hT : n * P ≤ T) (hfuel : n < fuel)
    (hrel : relEnv.conn = .ok ()) (hrelr : relEnv.resp = .error e) :
    (self.tryAcquire envC m resources E).1 = .error e ∧
      (self.tryAcquire envR m resources E).1 = .error e ∧
      (self.tryLock envR m resources E).1 = .error e ∧
      self.acquire envs fuel resources E T P =
        .out (.error e) (n * P)
          (pollTrace resources E P 0 n ++ [acqCallEvent resources E n]) ∧
      countFcalls (pollTrace resources E P 0 n ++ [acqCallEvent resources E n]) =
        n + 1 ∧
      self.lock envs fuel resources E T P =
        .out (.error e) (n * P)
          (pollTrace resources E P 0 n ++ [acqCallEvent resources E n]) ∧
      (self.release relEnv lockId).1 = .error e := by
  have h1 : (self.tryAcquire envC m resources E).1 = .error e := by
    unfold MultiResourceLock.tryAcquire
    rw [hC]
  have h2 : (self.tryAcquire envR m resources E).1 = .error e := by
    unfold MultiResourceLock.tryAcquire
    rw [hR, hRr]
  have h3 : (self.tryLock envR m resources E).1 = .error e := by
    unfold MultiResourceLock.tryLock
    cases hx : self.tryAcquire envR m resources E with
    | mk r tr =>
      rw [hx] at h2
      simp only at h2
      rw [h2]
      rfl
  have h4 : self.acquire envs fuel resources E T P =
      .out (.error e) (n * P)
        (pollTrace resources E P 0 n ++ [acqCallEvent resources E n]) := by
    have h := acquireAux_respErr self envs resources E T P n 0 0 fuel e
      (by intro j hj; simpa using hpre j hj) (by simpa using herr)
      (by simpa using hT) hfuel
    simpa [MultiResourceLock.acquire] using h
  have h5 : countFcalls (pollTrace resources E P 0 n ++ [acqCallEvent resources E n]) =
      n + 1 := by
    simp only [countFcalls, List.countP_append] at *
    have := countFcalls_pollTrace resources E P n 0
    simp only [countFcalls] at this
    simp [this, acqCallEvent]
  have h6 : self.lock envs fuel resources E T P =
      .out (.error e) (n * P)
        (pollTrace resources E P 0 n ++ [acqCallEvent resources E n]) := by
    unfold MultiResourceLock.lock
    rw [h4]
    rfl
  have h7 : (self.release relEnv lockId).1 = .error e := by
    unfold MultiResourceLock.release
    rw [hrel, hrelr]
  exact ⟨h1, h2, h3, h4, h5, h6, h7⟩

/-- Claim C8 witness: one conflicting attempt, then a transport error. -/
theorem claim_transport_error_propagation_witness :
    (MultiResourceLock.tryAcquire ⟨⟨"redis://127.0.0.1/"⟩⟩
          ⟨.error ⟨"io"⟩, .ok none⟩ 7 ["a"] 10).1 = .error ⟨"io"⟩ ∧
      (MultiResourceLock.tryAcquire ⟨⟨"redis://127.0.0.1/"⟩⟩
          ⟨.ok (), .error ⟨"io"⟩⟩ 7 ["a"] 10).1 = .error ⟨"io"⟩ ∧
      (MultiResourceLock.tryLock ⟨⟨"redis://127.0.0.1/"⟩⟩
          ⟨.ok (), .error ⟨"io"⟩⟩ 7 ["a"] 10).1 = .error ⟨"io"⟩ ∧
      MultiResourceLock.acquire ⟨⟨"redis://127.0.0.1/"⟩⟩
          (fun j => if j < 1 then conflictEnv else ⟨.ok (), .error ⟨"io"⟩⟩) 2
          ["a"] 10 5 2 =
        .out (.error ⟨"io"⟩) (1 * 2)
          (pollTrace ["a"] 10 2 0 1 ++ [acqCallEvent ["a"] 10 1]) ∧
      countFcalls (pollTrace ["a"] 10 2 0 1 ++ [acqCallEvent ["a"] 10 1]) = 1 + 1 ∧
      MultiResourceLock.lock ⟨⟨"redis://127.0.0.1/"⟩⟩
          (fun j => if j < 1 then conflictEnv else ⟨.ok (), .error ⟨"io"⟩⟩) 2
          ["a"] 10 5 2 =
        .out (.error ⟨"io"⟩) (1 * 2)
          (pollTrace ["a"] 10 2 0 1 ++ [acqCallEvent ["a"] 10 1]) ∧
      (MultiResourceLock.release ⟨⟨"redis://127.0.0.1/"⟩⟩
          ⟨.ok (), .error ⟨"io"⟩⟩ "some-lock-id").1 = .error ⟨"io"⟩ :=
  claim_transport_error_propagation ⟨⟨"redis://127.0.0.1/"⟩⟩
    ⟨.error ⟨"io"⟩, .ok none⟩ ⟨.ok (), .error ⟨"io"⟩⟩ ⟨.ok (), .error ⟨"io"⟩⟩
    (fun j => if j < 1 then conflictEnv else ⟨.ok (), .error ⟨"io"⟩⟩)
    ["a"] 10 5 2 2 1 7 ⟨"io"⟩ "some-lock-id"
    rfl rfl rfl (fun j hj => by simp [hj]) rfl (by norm_num) (by norm_num) rfl rfl

/-- Claim C6: dropping a guard dispatches exactly one release attempt, for the
guard's own lock id, to a background task; the task captures a fresh
`MultiResourceLock` built from a clone of the guard's client (an independent
connection/session — the release obtains its own connection when it runs), and
the synchronous destruction path performs no store round trip, no sleep, and
surfaces no error on the caller's thread. -/
theorem claim_guard_drop_dispatch (g : MultiResourceGuard) (env : ReleaseEnv)
    (hconn : env.conn = .ok ()) :
    (g.drop env).spawnedReleases = [g.lockId] ∧
      (g.drop env).callerEvents = [] ∧
      (g.drop env).callerError = none ∧
      (g.drop env).taskLock = { client := g.client } ∧
      (g.drop env).taskEvents = [Event.fcall "release_lock" [g.lockId]] := by
  unfold MultiResourceGuard.drop MultiResourceLock.release
  rw [hconn]
  cases h : env.resp <;> exact ⟨rfl, rfl, rfl, rfl, rfl⟩

/-- Claim C6 witness. -/
theorem claim_guard_drop_dispatch_witness :
    (MultiResourceGuard.drop ⟨⟨"redis://127.0.0.1/"⟩, "L"⟩
          ⟨.ok (), .ok 2⟩).spawnedReleases = ["L"] ∧
      (MultiResourceGuard.drop ⟨⟨"redis://127.0.0.1/"⟩, "L"⟩
          ⟨.ok (), .ok 2⟩).callerEvents = [] ∧
      (MultiResourceGuard.drop ⟨⟨"redis://127.0.0.1/"⟩, "L"⟩
          ⟨.ok (), .ok 2⟩).callerError = none ∧
      (MultiResourceGuard.drop ⟨⟨"redis://127.0.0.1/"⟩, "L"⟩
          ⟨.ok (), .ok 2⟩).taskLock = { client := ⟨"redis://127.0.0.1/"⟩ } ∧
      (MultiResourceGuard.drop ⟨⟨"redis://127.0.0.1/"⟩, "L"⟩
          ⟨.ok (), .ok 2⟩).taskEvents = [Event.fcall "release_lock" ["L"]] :=
  claim_guard_drop_dispatch ⟨⟨"redis://127.0.0.1/"⟩, "L"⟩ ⟨.ok (), .ok 2⟩ rfl

/-- Claim C7: a failure of the deferred release at guard destruction is
swallowed: the caller observes no error whatever the transport outcome
(destruction has no error channel — the failure only marks the discarded
background task as panicked), and recovery relies on TTL expiry alone: a record
whose `expires_at` has passed no longer blocks any acquisition attempt. -/
theorem claim_deferred_release_failure_swallowed (g : MultiResourceGuard)
    (env : ReleaseEnv) (e : RedisError)
    (hfail : (MultiResourceLock.release { client := g.client } env g.lockId).1 =
      .error e) :
    (g.drop env).callerError = none ∧
      (g.drop env).taskPanicked = true ∧
      ∀ (s : Store) (r lockId2 : String) (now : Nat) (rec : LockRecord),
        lookupRecord s r = some rec → rec.expiresAt < now →
          conflictsAt now lockId2 s r = false := by
  have hzeta : g.drop env =
      match MultiResourceLock.release { client := g.client } env g.lockId with
      | (r, tr) =>
        { callerError := none, callerEvents := [], spawnedReleases := [g.lockId],
          taskLock := { client := g.client }, taskEvents := tr,
          taskPanicked := !r.isOk } := rfl
  refine ⟨?_, ?_, ?_⟩
  · cases hx : MultiResourceLock.release { client := g.client } env g.lockId with
    | mk r tr => rw [hzeta, hx]
  · cases hx : MultiResourceLock.release { client := g.client } env g.lockId with
    | mk r tr =>
      have hr : r = Except.error e := by rw [hx] at hfail; exact hfail
      rw [hzeta, hx, hr]
      rfl
  · intro s r lockId2 now rec hlook hexp
    unfold conflictsAt
    rw [hlook]
    simp [unexpired, Nat.not_le.mpr hexp]

/-- Claim C7 witness: a release whose query fails. -/
theorem claim_deferred_release_failure_swallowed_witness :
    (MultiResourceGuard.drop ⟨⟨"redis://127.0.0.1/"⟩, "L"⟩
          ⟨.ok (), .error ⟨"io"⟩⟩).callerError = none ∧
      (MultiResourceGuard.drop ⟨⟨"redis://127.0.0.1/"⟩, "L"⟩
          ⟨.ok (), .error ⟨"io"⟩⟩).taskPanicked = true ∧
      ∀ (s : Store) (r lockId2 : String) (now : Nat) (rec : LockRecord),
        lookupRecord s r = some rec → rec.expiresAt < now →
          conflictsAt now lockId2 s r = false :=
  claim_deferred_release_failure_swallowed ⟨⟨"redis://127.0.0.1/"⟩, "L"⟩
    ⟨.ok (), .error ⟨"io"⟩⟩ ⟨"io"⟩ rfl

end RedisLocking
